import Mathlib

/-!
Verification of the trading-algorithm engine: a shallow embedding in Lean 4 of
the indicator layer (`src/MovingAverage.cpp`), the backtesting simulator
(`src/Backtester.cpp`), the gene-driven strategy and the genetic optimizer
(`src/GeneticStrategy.cpp`, `src/Strategy.cpp`).

Modelling conventions:
- C++ `double` is modelled as `ℚ` (exact rational arithmetic).  All code paths
  under study are plain field arithmetic, so each SIMD/scalar variant of a sum
  computes the same rational value; claims stated "within floating tolerance"
  are settled as exact equalities over `ℚ`, which imply the tolerance bound.
- C++ `size_t` is `Nat`; the `int → size_t` conversion is modelled explicitly
  (`toSizeT`, reduction modulo 2^64), and the wrap-around of `index - 1` on
  `size_t` at `index = 0` is modelled by `idxSub1`.
- `std::vector<double>` is `List ℚ`; a raw `operator[]` access whose validity
  is at issue is modelled by `readIdx` / `readBar`, returning `none` exactly
  when the access is out of bounds.
- `std::mt19937` together with the `uniform_*_distribution` adaptors is
  modelled as an abstract deterministic draw stream `Rng := Nat → Nat` with a
  running position; each call of a distribution consumes one stream element.
- The simulator state additionally carries a ghost trade log (`trades`); the
  log is written exactly where the C++ code realizes a close and is read by no
  modelled computation, so it does not perturb the embedding.
-/

/-- One OHLCV price bar (`DataLoader.hpp`). -/
structure OHLCV where
  timestamp : String
  open_ : ℚ
  high : ℚ
  low : ℚ
  close : ℚ
  volume : ℚ
deriving DecidableEq

instance : Inhabited OHLCV := ⟨⟨"", 0, 0, 0, 0, 0⟩⟩

/-- Bar at index `i` of the series; default bar past the end (accesses whose
validity matters are modelled separately with `readBar`). -/
def barAt (data : List OHLCV) (i : Nat) : OHLCV :=
  data.getD i default

/-- Close price at index `i` (the `close_prices` array of the C++ code). -/
def closeAt (data : List OHLCV) (i : Nat) : ℚ :=
  (barAt data i).close

/-- Sum of `period` consecutive closes starting at index `first` (the trailing
window loops of `MovingAverage.cpp`). -/
def windowSum (data : List OHLCV) (first period : Nat) : ℚ :=
  ∑ k ∈ Finset.range period, closeAt data (first + k)

namespace Indicators

/-- Embeds `Indicators::SMA` (`MovingAverage.cpp:11`): mean of the trailing `period`
closes ending at `end_index`; sentinel `0` when fewer than `period` bars exist.
The SIMD branches sum the same window, so one rational sum models all paths. -/
def SMA (data : List OHLCV) (end_index period : Nat) : ℚ :=
  if end_index + 1 < period then 0
  else windowSum data (end_index + 1 - period) period / period

/-- Price change `close[i] - close[i-1]` used by `Indicators::RSI`. -/
def change (data : List OHLCV) (i : Nat) : ℚ :=
  closeAt data i - closeAt data (i - 1)

/-- Gain contributed by index `i` in the RSI window (`0` at `i = 0`, which the
C++ loop skips with `continue`). -/
def gainAt (data : List OHLCV) (i : Nat) : ℚ :=
  if i = 0 then 0
  else if 0 < change data i then change data i else 0

/-- Loss contributed by index `i` in the RSI window. -/
def lossAt (data : List OHLCV) (i : Nat) : ℚ :=
  if i = 0 then 0
  else if change data i < 0 then -(change data i) else 0

/-- Total gain over the RSI window ending at `end_index`. -/
def totalGain (data : List OHLCV) (end_index period : Nat) : ℚ :=
  ∑ k ∈ Finset.range period, gainAt data (end_index + 1 - period + k)

/-- Total loss over the RSI window ending at `end_index`. -/
def totalLoss (data : List OHLCV) (end_index period : Nat) : ℚ :=
  ∑ k ∈ Finset.range period, lossAt data (end_index + 1 - period + k)

/-- Embeds `Indicators::RSI` (`MovingAverage.cpp:86`): neutral `50` on insufficient
history or no movement, `100` on an epsilon-small loss floor, otherwise the
classic `100 - 100/(1+rs)` with `rs = avg_gain / avg_loss`. -/
def RSI (data : List OHLCV) (end_index period : Nat) : ℚ :=
  if end_index < period then 50
  else
    let tg := totalGain data end_index period
    let tl := totalLoss data end_index period
    if tg + tl < 1 / 10 ^ 10 then 50
    else if tl / period < 1 / 10 ^ 10 then 100
    else 100 - 100 / (1 + (tg / period) / (tl / period))

/-- Running sliding-window sum of `calculateBatchIndicators`
(`MovingAverage.cpp:216-229`): `slideSum data P k` is the value of the C++
variable `sum` when the loop is about to write array index `P - 1 + k`. -/
def slideSum (data : List OHLCV) (P : Nat) : Nat → ℚ
  | 0 => windowSum data 0 P
  | k + 1 => slideSum data P k - closeAt data k + closeAt data (P + k)

/-- Final content of `sma_values[i]` after `calculateBatchIndicators`: the
warm-up fill loop writes `0` for `i + 1 < P`; the sliding window writes
`sum / P` for `i + 1 ≥ P` when `n ≥ P`; otherwise the `resize` default `0`
is never overwritten. -/
def batchSMAval (data : List OHLCV) (P i : Nat) : ℚ :=
  if i + 1 < P then 0
  else if P ≤ data.length then slideSum data P (i + 1 - P) / P
  else 0

/-- The full `sma_values` array produced by `calculateBatchIndicators`. -/
def batchSMA (data : List OHLCV) (P : Nat) : List ℚ :=
  (List.range data.length).map (fun i => batchSMAval data P i)

/-- Final content of `rsi_values[i]` after `calculateBatchIndicators`: the fill
loop writes `50` for `i < Q`, the main loop writes `RSI(data, i, Q)` for
`i ≥ Q`. -/
def batchRSIval (data : List OHLCV) (Q i : Nat) : ℚ :=
  if i < Q then 50 else RSI data i Q

/-- The full `rsi_values` array produced by `calculateBatchIndicators`. -/
def batchRSI (data : List OHLCV) (Q : Nat) : List ℚ :=
  (List.range data.length).map (fun i => batchRSIval data Q i)

end Indicators

/-- Signal kinds (`Strategy.hpp`). -/
inductive SignalType
  | NONE
  | BUY
  | SELL
deriving DecidableEq

/-- A trade signal (`Strategy.hpp`). -/
structure TradeSignal where
  type : SignalType
  index : Nat
  stop_loss : ℚ
  take_profit : ℚ
  reason : String
deriving DecidableEq

/-- The polymorphic strategy capability: `generateSignal(data, current_index)`
(`Strategy.hpp`, pure virtual). -/
def Strategy : Type := List OHLCV → Nat → TradeSignal

/-- How a simulated position was closed. -/
inductive ExitKind
  | stop
  | target
  | forced
deriving DecidableEq

/-- Ghost record of one closed trade (instrumentation for the invariants; the
C++ simulator keeps no such log). -/
structure Trade where
  entryIndex : Nat
  entryDate : String
  entryPrice : ℚ
  exitIndex : Nat
  exitPrice : ℚ
  pnl : ℚ
  kind : ExitKind
deriving DecidableEq

namespace Backtester

/-- Value of the leading decimal-digit run of a character list. -/
def digitsVal : List Char → Nat → Nat
  | [], acc => acc
  | c :: cs, acc =>
    if c.isDigit then digitsVal cs (acc * 10 + (c.toNat - 48)) else acc

/-- Year parsed by `addToYearlyPnL` (`Backtester.cpp:80-102`): the first four
characters of the timestamp read as an integer.  `istringstream >> int` on a
`YYYY` prefix reduces to reading the leading digit run (and yields `0` when the
first character is not a digit, matching the stream-failure value). -/
def parsedYear (s : String) : Int :=
  Int.ofNat (digitsVal (s.take 4).toList 0)

/-- Embeds `Backtester::addToYearlyPnL`: accumulate `pnl` into the bucket of the
parsed entry year, but only when the date has at least 4 characters and the
parsed year is positive. -/
def addToYearlyPnL (m : Int → ℚ) (entry_date : String) (pnl : ℚ) : Int → ℚ :=
  if 4 ≤ entry_date.length then
    let year := parsedYear entry_date
    if 0 < year then fun y => if y = year then m y + pnl else m y
    else m
  else m

/-- Simulator state of `Backtester::run` (locals of the loop plus the members
of the class; `entry_index` and `trades` are ghost instrumentation). -/
structure BtState where
  in_position : Bool
  entry_price : ℚ
  stop_loss : ℚ
  take_profit : ℚ
  entry_date : String
  entry_index : Nat
  equity : ℚ
  equity_curve : List ℚ
  yearly_pnl : Int → ℚ
  total_trades : Nat
  winning_trades : Nat
  trades : List Trade

/-- Realize a close at `price` on bar `i` (`Backtester.cpp:53-63`): add the
PnL to equity and to the yearly bucket of the entry date, leave the position. -/
def closePosition (st : BtState) (i : Nat) (price : ℚ) (k : ExitKind) : BtState :=
  let pnl := price - st.entry_price
  { st with
    equity := st.equity + pnl
    yearly_pnl := addToYearlyPnL st.yearly_pnl st.entry_date pnl
    in_position := false
    trades := st.trades ++ [⟨st.entry_index, st.entry_date, st.entry_price, i, price, pnl, k⟩] }

/-- One iteration of the main loop of `Backtester::run` (`Backtester.cpp:37-66`)
at bar `i`: when flat, query the strategy and open on BUY; when in a position,
check the stop first, then the target; in every case append the equity. -/
def stepBar (σ : Strategy) (data : List OHLCV) (i : Nat) (st : BtState) : BtState :=
  let st1 :=
    if st.in_position = false then
      let signal := σ data i
      match signal.type with
      | SignalType.BUY =>
        { st with
          in_position := true
          entry_price := closeAt data i
          stop_loss := signal.stop_loss
          take_profit := signal.take_profit
          entry_date := (barAt data i).timestamp
          entry_index := i }
      | _ => st
    else
      let bar := barAt data i
      if bar.low ≤ st.stop_loss then closePosition st i st.stop_loss ExitKind.stop
      else if st.take_profit ≤ bar.high then closePosition st i st.take_profit ExitKind.target
      else st
  { st1 with equity_curve := st1.equity_curve ++ [st1.equity] }

/-- Initial state of `Backtester::run`: flat, equity at the initial capital,
equity curve seeded with the initial capital (`Backtester.cpp:15-23`). -/
def initState (e0 : ℚ) : BtState :=
  ⟨false, 0, 0, 0, "", 0, e0, [e0], fun _ => 0, 0, 0, []⟩

/-- Forced liquidation after the last bar (`Backtester.cpp:69-73`): close the
remaining position at the final bar's close. -/
def closeForced (data : List OHLCV) (st : BtState) : BtState :=
  let price := closeAt data (data.length - 1)
  let pnl := price - st.entry_price
  { st with
    equity := st.equity + pnl
    yearly_pnl := addToYearlyPnL st.yearly_pnl st.entry_date pnl
    in_position := false
    trades := st.trades ++ [⟨st.entry_index, st.entry_date, st.entry_price, data.length - 1, price, pnl, ExitKind.forced⟩] }

/-- Embeds `Backtester::run`: the loop runs over bar indices `1 .. n-1`; any position
still open afterwards is force-closed at the final close. -/
def run (σ : Strategy) (data : List OHLCV) (e0 : ℚ) : BtState :=
  let stN := (List.range' 1 (data.length - 1)).foldl (fun st i => stepBar σ data i st) (initState e0)
  if stN.in_position then closeForced data stN else stN

/-- Embeds `Backtester::getTotalTrades` (`Backtester.hpp:16`). -/
def getTotalTrades (st : BtState) : Nat := st.total_trades

/-- Embeds `Backtester::getWinRate` (`Backtester.hpp:17`). -/
def getWinRate (st : BtState) : ℚ :=
  if 0 < st.total_trades then (st.winning_trades : ℚ) / st.total_trades else 0

end Backtester

/-- State threaded through the walk-forward of
`GeneticAlgorithm::evaluateFitness` (`GeneticStrategy.cpp:269-311`). -/
structure FitState where
  equity : ℚ
  winning_trades : Nat
  total_trades : Nat
  profits : List ℚ
  losses : List ℚ
  equity_curve : List ℚ
  returns : List ℚ
deriving DecidableEq

/-- Exit price chosen by the fitness walk when bar `bar` ends a trade
(`GeneticStrategy.cpp:290`): the stop level if the low breaches it, the target
otherwise — the stop branch takes precedence. -/
def gaExitPrice (bar : OHLCV) (stop tp : ℚ) : ℚ :=
  if bar.low ≤ stop then stop else tp

/-- Exit test of the fitness walk (`GeneticStrategy.cpp:289`). -/
def hitsExit (bar : OHLCV) (stop tp : ℚ) : Bool :=
  decide (bar.low ≤ stop ∨ tp ≤ bar.high)

/-- First bar index `j` in `[start, start + len)` whose low/high reaches the
stop or the target (the inner `for (j = i+1; ...)` scan of `evaluateFitness`). -/
def findExit (data : List OHLCV) (stop tp : ℚ) (start len : Nat) : Option Nat :=
  (List.range' start len).find? (fun j => hitsExit (barAt data j) stop tp)

/-- One iteration of the outer loop of `GeneticAlgorithm::evaluateFitness` at
bar `i`: on a BUY signal, scan forward for the first stop/target touch and, if
one exists, realize the trade; then append the equity and (for `i > 0`) the
per-bar return.  A BUY whose levels are never touched records nothing. -/
def fitStep (σ : Strategy) (sizePct : ℚ) (data : List OHLCV) (st : FitState) (i : Nat) : FitState :=
  let signal := σ data i
  let st1 :=
    match signal.type with
    | SignalType.BUY =>
      let entry := closeAt data i
      match findExit data signal.stop_loss signal.take_profit (i + 1) (data.length - (i + 1)) with
      | some j =>
        let exitPrice := gaExitPrice (barAt data j) signal.stop_loss signal.take_profit
        let tradeReturn := (exitPrice - entry) / entry
        { st with
          equity := st.equity * (1 + tradeReturn * sizePct)
          total_trades := st.total_trades + 1
          winning_trades := if 0 < tradeReturn then st.winning_trades + 1 else st.winning_trades
          profits := if 0 < tradeReturn then st.profits ++ [tradeReturn] else st.profits
          losses := if 0 < tradeReturn then st.losses else st.losses ++ [-tradeReturn] }
      | none => st
    | _ => st
  let st2 := { st1 with equity_curve := st1.equity_curve ++ [st1.equity] }
  if 0 < i then
    let prev := st2.equity_curve.getD (i - 1) 0
    { st2 with returns := st2.returns ++ [(st1.equity - prev) / prev] }
  else st2

/-- Initial walk state of `evaluateFitness` (`GeneticStrategy.cpp:276-278`). -/
def initFitState : FitState :=
  ⟨10000, 0, 0, [], [], [], []⟩

/-- The full walk-forward of `evaluateFitness` over all bars. -/
def evalWalk (σ : Strategy) (sizePct : ℚ) (data : List OHLCV) : FitState :=
  (List.range data.length).foldl (fitStep σ sizePct data) initFitState

/-- The constant-NONE strategy (used to express "as if the signal had been
NONE"). -/
def noneStrategy : Strategy :=
  fun _ i => ⟨SignalType.NONE, i, 0, 0, ""⟩

/-- C++ conversion `int → size_t`: reduction modulo 2^64 (negative values wrap
to huge unsigned values). -/
def toSizeT (v : Int) : Nat :=
  (v % (2 ^ 64 : Int)).toNat

/-- C++ `size_t` subtraction `index - 1`: wraps to `2^64 - 1` at `index = 0`
(the out-of-bounds hazard of the cross conditions). -/
def idxSub1 (i : Nat) : Nat :=
  if i = 0 then 2 ^ 64 - 1 else i - 1

/-- Bounds-checked model of `std::vector<double>::operator[]`: `none` exactly
when the C++ access is out of bounds. -/
def readIdx (xs : List ℚ) (i : Nat) : Option ℚ :=
  xs.get? i

/-- Bounds-checked model of `data[i]` on the bar series. -/
def readBar (data : List OHLCV) (i : Nat) : Option OHLCV :=
  data.get? i

/-- Indicator kinds of a gene (`GeneticStrategy.hpp`). -/
inductive IndicatorType
  | SMA
  | EMA
  | RSI
  | MACD
  | BB
  | ATR
  | STOCH
  | ADX
deriving DecidableEq

/-- Entry condition kinds of a gene (`GeneticStrategy.hpp`). -/
inductive EntryCondition
  | CROSS_ABOVE
  | CROSS_BELOW
  | ABOVE
  | BELOW
  | INSIDE_BB
  | OUTSIDE_BB
deriving DecidableEq

/-- Exit condition kinds of a gene (`GeneticStrategy.hpp`). -/
inductive ExitCondition
  | FIXED_RR
  | TRAILING_STOP
  | TIME_BASED
  | INDICATOR_SIGNAL
deriving DecidableEq

/-- A strategy gene (`GeneticStrategy.hpp:10-43`), with the source's default
field values.  The C++ field `risk_reward_ratio` is named `risk_reward` here;
periods are `Int` like the C++ `int` fields. -/
structure StrategyGene where
  primary_indicator : IndicatorType := IndicatorType.SMA
  secondary_indicator : IndicatorType := IndicatorType.RSI
  primary_period : Int := 20
  secondary_period : Int := 14
  primary_threshold : ℚ := 0
  secondary_threshold : ℚ := 30
  entry_condition : EntryCondition := EntryCondition.CROSS_ABOVE
  exit_condition : ExitCondition := ExitCondition.FIXED_RR
  risk_reward : ℚ := 2
  stop_loss_pct : ℚ := 1 / 50
  take_profit_pct : ℚ := 1 / 25
  max_hold_time : Int := 48
  position_size_pct : ℚ := 1 / 10
  fitness : ℚ := 0
deriving DecidableEq

instance : Inhabited StrategyGene := ⟨{}⟩

namespace EvolvedStrategy

/-- Embeds `EvolvedStrategy::calculateIndicator` (`GeneticStrategy.cpp:462-471`):
dispatch on the indicator kind; only SMA and RSI are implemented, everything
else yields `0`.  The `int` period is converted to `size_t` at the call. -/
def calculateIndicator (data : List OHLCV) (index : Nat) (t : IndicatorType) (period : Int) : ℚ :=
  match t with
  | IndicatorType.SMA => Indicators.SMA data index (toSizeT period)
  | IndicatorType.RSI => Indicators.RSI data index (toSizeT period)
  | _ => 0

/-- The cached `primary_values_` array (`EvolvedStrategy::precomputeIndicators`,
`GeneticStrategy.cpp:450-460`). -/
def primaryValues (g : StrategyGene) (data : List OHLCV) : List ℚ :=
  (List.range data.length).map
    (fun i => calculateIndicator data i g.primary_indicator g.primary_period)

/-- The cached `secondary_values_` array. -/
def secondaryValues (g : StrategyGene) (data : List OHLCV) : List ℚ :=
  (List.range data.length).map
    (fun i => calculateIndicator data i g.secondary_indicator g.secondary_period)

/-- Embeds `EvolvedStrategy::checkEntryCondition` (`GeneticStrategy.cpp:473-494`) with
every raw array access bounds-checked: the result is `none` exactly when the
C++ function would read out of bounds.  The `&&` of the cross conditions
short-circuits, so `primary_values_[index - 1]` (with `index - 1` in `size_t`
arithmetic) is read only when the first conjunct holds — exactly as in the
C++; the `ABOVE`/`BELOW` conditions compare only the two locals read at
function entry. -/
def checkEntryCondition (g : StrategyGene) (data : List OHLCV) (index : Nat) : Option Bool :=
  let pv := primaryValues g data
  let sv := secondaryValues g data
  do
  let primary_val ← readIdx pv index
  let secondary_val ← readIdx sv index
  let _bar ← readBar data index
  match g.entry_condition with
  | EntryCondition.CROSS_ABOVE =>
    if g.primary_threshold < primary_val then do
      let prev ← readIdx pv (idxSub1 index)
      pure (decide (prev ≤ g.primary_threshold))
    else pure false
  | EntryCondition.CROSS_BELOW =>
    if primary_val < g.primary_threshold then do
      let prev ← readIdx pv (idxSub1 index)
      pure (decide (g.primary_threshold ≤ prev))
    else pure false
  | EntryCondition.ABOVE =>
    pure (decide (g.primary_threshold < primary_val ∧ g.secondary_threshold < secondary_val))
  | EntryCondition.BELOW =>
    pure (decide (primary_val < g.primary_threshold ∧ secondary_val < g.secondary_threshold))
  | _ => pure false

/-- Embeds `EvolvedStrategy::generateSignal` (`GeneticStrategy.cpp:425-448`): NONE
before the warm-up gate `index < max(primary_period, secondary_period)` (an
`int` max compared as `size_t`), otherwise evaluate the entry condition and on
success emit a BUY whose stop/target are the percentage offsets of
`calculateStopLoss` / `calculateTakeProfit` (`GeneticStrategy.cpp:496-502`).
`none` models an out-of-bounds fault. -/
def generateSignal (g : StrategyGene) (data : List OHLCV) (index : Nat) : Option TradeSignal :=
  if index < toSizeT (max g.primary_period g.secondary_period) then
    some ⟨SignalType.NONE, index, 0, 0, "Not enough data"⟩
  else
    match checkEntryCondition g data index with
    | none => none
    | some true =>
      match readBar data index with
      | none => none
      | some bar =>
        some ⟨SignalType.BUY, index, bar.close * (1 - g.stop_loss_pct),
              bar.close * (1 + g.take_profit_pct), "Evolved Strategy Signal"⟩
    | some false => some ⟨SignalType.NONE, index, 0, 0, "No signal"⟩

end EvolvedStrategy

/-- Stop level written by `GoldenFoundationStrategy::precomputeSignals` on a
BUY (`Strategy.cpp:124-126`): `entry - entry * (0.005 / risk_reward)`. -/
def goldenStop (rr entry : ℚ) : ℚ :=
  entry - entry * (5 / 1000 / rr)

/-- Target level written by `GoldenFoundationStrategy::precomputeSignals` on a
BUY (`Strategy.cpp:127`): `entry + (entry - stop) * risk_reward`. -/
def goldenTarget (rr entry : ℚ) : ℚ :=
  entry + (entry - goldenStop rr entry) * rr

/-- Abstract deterministic random stream: position `p` yields raw draw `r p`
(models the `std::mt19937` output sequence). -/
def Rng : Type := Nat → Nat

/-- Draw of `uniform_int_distribution<int>(0, n-1)` applied to the stream at `pos`. -/
def drawIdx (r : Rng) (pos n : Nat) : Nat :=
  r pos % n

/-- Draw of `uniform_int_distribution<int>(lo, hi)` applied to the stream at `pos`. -/
def drawIntRange (r : Rng) (pos : Nat) (lo hi : Int) : Int :=
  lo + Int.ofNat (r pos % (hi - lo + 1).toNat)

/-- Draw of `uniform_real_distribution<double>(0, 1)` applied to the stream at `pos`
(one 32-bit word scaled into `[0,1)`). -/
def drawUnit (r : Rng) (pos : Nat) : ℚ :=
  ((r pos % 4294967296 : Nat) : ℚ) / 4294967296

/-- Draw of `uniform_real_distribution<double>(lo, hi)` applied to the stream. -/
def drawRange (r : Rng) (pos : Nat) (lo hi : ℚ) : ℚ :=
  lo + (hi - lo) * drawUnit r pos

/-- Cast `static_cast<IndicatorType>` of a draw in `0..7`. -/
def indicatorOfNat (k : Nat) : IndicatorType :=
  match k with
  | 0 => IndicatorType.SMA
  | 1 => IndicatorType.EMA
  | 2 => IndicatorType.RSI
  | 3 => IndicatorType.MACD
  | 4 => IndicatorType.BB
  | 5 => IndicatorType.ATR
  | 6 => IndicatorType.STOCH
  | _ => IndicatorType.ADX

/-- Cast `static_cast<EntryCondition>` of a draw in `0..5`. -/
def entryOfNat (k : Nat) : EntryCondition :=
  match k with
  | 0 => EntryCondition.CROSS_ABOVE
  | 1 => EntryCondition.CROSS_BELOW
  | 2 => EntryCondition.ABOVE
  | 3 => EntryCondition.BELOW
  | 4 => EntryCondition.INSIDE_BB
  | _ => EntryCondition.OUTSIDE_BB

/-- Cast `static_cast<ExitCondition>` of a draw in `0..3`. -/
def exitOfNat (k : Nat) : ExitCondition :=
  match k with
  | 0 => ExitCondition.FIXED_RR
  | 1 => ExitCondition.TRAILING_STOP
  | 2 => ExitCondition.TIME_BASED
  | _ => ExitCondition.INDICATOR_SIGNAL

/-- Embeds `StrategyGene::random` (`GeneticStrategy.cpp:10-38`): thirteen sequential
draws, one per field, in source order; returns the gene and the next stream
position. -/
def geneRandom (r : Rng) (pos : Nat) : StrategyGene × Nat :=
  ({ primary_indicator := indicatorOfNat (drawIdx r pos 8)
     secondary_indicator := indicatorOfNat (drawIdx r (pos + 1) 8)
     primary_period := drawIntRange r (pos + 2) 5 200
     secondary_period := drawIntRange r (pos + 3) 5 200
     primary_threshold := drawRange r (pos + 4) (-50) 50
     secondary_threshold := drawRange r (pos + 5) (-50) 50
     entry_condition := entryOfNat (drawIdx r (pos + 6) 6)
     exit_condition := exitOfNat (drawIdx r (pos + 7) 4)
     risk_reward := drawRange r (pos + 8) 1 10
     stop_loss_pct := drawRange r (pos + 9) (5 / 1000) (1 / 10)
     take_profit_pct := drawRange r (pos + 10) (5 / 1000) (1 / 10)
     max_hold_time := drawIntRange r (pos + 11) 1 168
     position_size_pct := drawRange r (pos + 12) (1 / 100) (1 / 2) },
   pos + 13)

/-- Embeds `StrategyGene::mutate` (`GeneticStrategy.cpp:40-65`): for each field in
source order, one test draw; when the test passes, one further draw resamples
the field within its range. -/
def mutateGene (g : StrategyGene) (r : Rng) (pos : Nat) (rate : ℚ) : StrategyGene × Nat :=
  let t1 := drawUnit r pos < rate
  let (f1, p1) :=
    if t1 then (indicatorOfNat (drawIdx r (pos + 1) 8), pos + 2) else (g.primary_indicator, pos + 1)
  let t2 := drawUnit r p1 < rate
  let (f2, p2) :=
    if t2 then (indicatorOfNat (drawIdx r (p1 + 1) 8), p1 + 2) else (g.secondary_indicator, p1 + 1)
  let t3 := drawUnit r p2 < rate
  let (f3, p3) :=
    if t3 then (drawIntRange r (p2 + 1) 5 200, p2 + 2) else (g.primary_period, p2 + 1)
  let t4 := drawUnit r p3 < rate
  let (f4, p4) :=
    if t4 then (drawIntRange r (p3 + 1) 5 200, p3 + 2) else (g.secondary_period, p3 + 1)
  let t5 := drawUnit r p4 < rate
  let (f5, p5) :=
    if t5 then (drawRange r (p4 + 1) (-50) 50, p4 + 2) else (g.primary_threshold, p4 + 1)
  let t6 := drawUnit r p5 < rate
  let (f6, p6) :=
    if t6 then (drawRange r (p5 + 1) (-50) 50, p5 + 2) else (g.secondary_threshold, p5 + 1)
  let t7 := drawUnit r p6 < rate
  let (f7, p7) :=
    if t7 then (entryOfNat (drawIdx r (p6 + 1) 6), p6 + 2) else (g.entry_condition, p6 + 1)
  let t8 := drawUnit r p7 < rate
  let (f8, p8) :=
    if t8 then (exitOfNat (drawIdx r (p7 + 1) 4), p7 + 2) else (g.exit_condition, p7 + 1)
  let t9 := drawUnit r p8 < rate
  let (f9, p9) :=
    if t9 then (drawRange r (p8 + 1) 1 10, p8 + 2) else (g.risk_reward, p8 + 1)
  let t10 := drawUnit r p9 < rate
  let (f10, p10) :=
    if t10 then (drawRange r (p9 + 1) (5 / 1000) (1 / 10), p9 + 2) else (g.stop_loss_pct, p9 + 1)
  let t11 := drawUnit r p10 < rate
  let (f11, p11) :=
    if t11 then (drawRange r (p10 + 1) (5 / 1000) (1 / 10), p10 + 2) else (g.take_profit_pct, p10 + 1)
  let t12 := drawUnit r p11 < rate
  let (f12, p12) :=
    if t12 then (drawIntRange r (p11 + 1) 1 168, p11 + 2) else (g.max_hold_time, p11 + 1)
  let t13 := drawUnit r p12 < rate
  let (f13, p13) :=
    if t13 then (drawRange r (p12 + 1) (1 / 100) (1 / 2), p12 + 2) else (g.position_size_pct, p12 + 1)
  ({ g with
     primary_indicator := f1, secondary_indicator := f2
     primary_period := f3, secondary_period := f4
     primary_threshold := f5, secondary_threshold := f6
     entry_condition := f7, exit_condition := f8
     risk_reward := f9, stop_loss_pct := f10, take_profit_pct := f11
     max_hold_time := f12, position_size_pct := f13 },
   p13)

/-- Embeds `StrategyGene::crossover` (`GeneticStrategy.cpp:67-86`): thirteen coin
draws choose each child field from one of the two parents; the child's
`fitness` is the default `0` (the C++ child is default-constructed and the
fitness field is never copied). -/
def crossoverGene (a b : StrategyGene) (r : Rng) (pos : Nat) : StrategyGene × Nat :=
  ({ primary_indicator := if drawUnit r pos < 1 / 2 then a.primary_indicator else b.primary_indicator
     secondary_indicator := if drawUnit r (pos + 1) < 1 / 2 then a.secondary_indicator else b.secondary_indicator
     primary_period := if drawUnit r (pos + 2) < 1 / 2 then a.primary_period else b.primary_period
     secondary_period := if drawUnit r (pos + 3) < 1 / 2 then a.secondary_period else b.secondary_period
     primary_threshold := if drawUnit r (pos + 4) < 1 / 2 then a.primary_threshold else b.primary_threshold
     secondary_threshold := if drawUnit r (pos + 5) < 1 / 2 then a.secondary_threshold else b.secondary_threshold
     entry_condition := if drawUnit r (pos + 6) < 1 / 2 then a.entry_condition else b.entry_condition
     exit_condition := if drawUnit r (pos + 7) < 1 / 2 then a.exit_condition else b.exit_condition
     risk_reward := if drawUnit r (pos + 8) < 1 / 2 then a.risk_reward else b.risk_reward
     stop_loss_pct := if drawUnit r (pos + 9) < 1 / 2 then a.stop_loss_pct else b.stop_loss_pct
     take_profit_pct := if drawUnit r (pos + 10) < 1 / 2 then a.take_profit_pct else b.take_profit_pct
     max_hold_time := if drawUnit r (pos + 11) < 1 / 2 then a.max_hold_time else b.max_hold_time
     position_size_pct := if drawUnit r (pos + 12) < 1 / 2 then a.position_size_pct else b.position_size_pct
     fitness := 0 },
   pos + 13)

namespace GeneticAlgorithm

/-- Scan step of `std::max_element` over the population with the fitness
comparator: carries (index, element) of the first maximal gene seen so far. -/
def maxEltFrom : List StrategyGene → Nat → Nat × StrategyGene → Nat × StrategyGene
  | [], _, best => best
  | g :: gs, ci, (bi, bg) =>
    maxEltFrom gs (ci + 1) (if bg.fitness < g.fitness then (ci, g) else (bi, bg))

/-- Embeds `std::max_element` on the population (`GeneticStrategy.cpp:235,367`):
index and value of the first gene of maximal fitness. -/
def maxElt (pop : List StrategyGene) : Nat × StrategyGene :=
  match pop with
  | [] => (0, default)
  | g :: gs => maxEltFrom gs 1 (0, g)

/-- One slot of `GeneticAlgorithm::selectParents` (`GeneticStrategy.cpp:333-341`):
an initial index draw followed by TWO further candidate draws, each replacing
the held index on strictly greater fitness. -/
def tournamentIdx (pop : List StrategyGene) (r : Rng) (pos : Nat) : Nat :=
  let n := pop.length
  let i0 := drawIdx r pos n
  let c1 := drawIdx r (pos + 1) n
  let i1 := if (pop.getD i0 default).fitness < (pop.getD c1 default).fitness then c1 else i0
  let c2 := drawIdx r (pos + 2) n
  if (pop.getD i1 default).fitness < (pop.getD c2 default).fitness then c2 else i1

/-- Recursion over the `population_size_` slots of `selectParents`; each slot
consumes three draws. -/
def selectGo (pop : List StrategyGene) (r : Rng) : Nat → Nat → List StrategyGene × Nat
  | 0, pos => ([], pos)
  | k + 1, pos =>
    let g := pop.getD (tournamentIdx pop r pos) default
    let rest := selectGo pop r k (pos + 3)
    (g :: rest.1, rest.2)

/-- Embeds `GeneticAlgorithm::selectParents` (`GeneticStrategy.cpp:329-345`): fill
`population_size_` slots by the three-candidate tournament above. -/
def selectParents (pop : List StrategyGene) (r : Rng) (pos : Nat) : List StrategyGene × Nat :=
  selectGo pop r pop.length pos

/-- Modelled from the spec: the selection procedure as section 4.4 describes it
— "tournament of size 2 — draw a candidate at random, compare against one more
random draw, keep the higher-fitness of the two; repeat N times".  Each slot
consumes two draws.  Stated only to be compared with `selectParents`. -/
def tournamentIdxSpecSizeTwo (pop : List StrategyGene) (r : Rng) (pos : Nat) : Nat :=
  let n := pop.length
  let i0 := drawIdx r pos n
  let c1 := drawIdx r (pos + 1) n
  if (pop.getD i0 default).fitness < (pop.getD c1 default).fitness then c1 else i0

/-- Modelled from the spec: the slot recursion of the size-2 tournament. -/
def selectGoSpecSizeTwo (pop : List StrategyGene) (r : Rng) : Nat → Nat → List StrategyGene × Nat
  | 0, pos => ([], pos)
  | k + 1, pos =>
    let g := pop.getD (tournamentIdxSpecSizeTwo pop r pos) default
    let (rest, p) := selectGoSpecSizeTwo pop r k (pos + 2)
    (g :: rest, p)

/-- Modelled from the spec: full size-2 tournament selection. -/
def selectParentsSpecSizeTwo (pop : List StrategyGene) (r : Rng) (pos : Nat) : List StrategyGene × Nat :=
  selectGoSpecSizeTwo pop r pop.length pos

/-- Embeds `GeneticAlgorithm::crossover` (`GeneticStrategy.cpp:347-358`): for each
adjacent pair, one test draw against the crossover rate; on success the pair is
replaced by its two crossover children.  A trailing unpaired gene is kept. -/
def crossPairs (r : Rng) (rate : ℚ) : List StrategyGene → Nat → List StrategyGene × Nat
  | [], pos => ([], pos)
  | [g], pos => ([g], pos)
  | a :: b :: rest, pos =>
    if drawUnit r pos < rate then
      let (c1, p1) := crossoverGene a b r (pos + 1)
      let (c2, p2) := crossoverGene b a r p1
      let (tail, p3) := crossPairs r rate rest p2
      (c1 :: c2 :: tail, p3)
    else
      let (tail, p1) := crossPairs r rate rest (pos + 1)
      (a :: b :: tail, p1)

/-- Embeds `GeneticAlgorithm::mutate` (`GeneticStrategy.cpp:360-364`): mutate every
gene in place, threading the stream. -/
def mutatePop (r : Rng) (rate : ℚ) : List StrategyGene → Nat → List StrategyGene × Nat
  | [], pos => ([], pos)
  | g :: gs, pos =>
    let (g1, p1) := mutateGene g r pos rate
    let (tail, p2) := mutatePop r rate gs p1
    (g1 :: tail, p2)

/-- Embeds `GeneticAlgorithm::elitism` (`GeneticStrategy.cpp:366-373`): if the
historical best's fitness exceeds the current population's best fitness,
overwrite the current best slot (the `max_element` iterator) with the
historical best. -/
def elitism (pop : List StrategyGene) (bestEver : StrategyGene) : List StrategyGene :=
  let m := maxElt pop
  if m.2.fitness < bestEver.fitness then pop.set m.1 bestEver else pop

/-- State carried across generations of `GeneticAlgorithm::evolve`. -/
structure GAState where
  population : List StrategyGene
  best_strategy : StrategyGene
  pos : Nat

/-- One generation of `GeneticAlgorithm::evolve` (`GeneticStrategy.cpp:230-249`),
with the scalar produced by `evaluateFitness` abstracted as `f` (its formula
mixes a square root into the Sharpe term and is irrelevant to the bookkeeping
claims): evaluate, record the best, select, crossover, mutate, elitism. -/
def evolveGen (f : StrategyGene → ℚ) (r : Rng) (mrate crate : ℚ) (st : GAState) : GAState :=
  let pop1 := st.population.map (fun g => { g with fitness := f g })
  let bg := (maxElt pop1).2
  let best := if st.best_strategy.fitness < bg.fitness then bg else st.best_strategy
  let sel := selectParents pop1 r st.pos
  let crossed := crossPairs r crate sel.1 sel.2
  let mutated := mutatePop r mrate crossed.1 crossed.2
  ⟨elitism mutated.1 best, best, mutated.2⟩

end GeneticAlgorithm

/-- Timestamp of the bar at index `i`. -/
def tsAt (data : List OHLCV) (i : Nat) : String :=
  (barAt data i).timestamp

/-- A timestamp whose leading `YYYY` year `addToYearlyPnL` accepts: at least
four characters and a positive parsed year. -/
def validDate (s : String) : Prop :=
  4 ≤ s.length ∧ 0 < Backtester.parsedYear s

instance (s : String) : Decidable (validDate s) := by
  unfold validDate
  infer_instance

/-- Yearly PnL map obtained by replaying a trade log through
`addToYearlyPnL`, each trade keyed by its entry date. -/
def yearlyOfTrades (ts : List Trade) : Int → ℚ :=
  ts.foldl (fun m t => Backtester.addToYearlyPnL m t.entryDate t.pnl) (fun _ => 0)

/-- Test bar: flat open/close `cl` with the given high/low. -/
def mkBar (ts : String) (hi lo cl : ℚ) : OHLCV :=
  ⟨ts, cl, hi, lo, cl, 0⟩

/-- Three-bar test series with closes 1, 2, 3. -/
def dataW1 : List OHLCV :=
  [mkBar "2020-01-01" 1 1 1, mkBar "2020-01-02" 2 2 2, mkBar "2020-01-03" 3 3 3]

/-- Test strategy: BUY at bar 1 with stop 95 and target 200. -/
def buyAtOne : Strategy :=
  fun _ i => if i = 1 then ⟨SignalType.BUY, 1, 95, 200, "test"⟩ else ⟨SignalType.NONE, i, 0, 0, "none"⟩

/-- Three-bar series in which `buyAtOne` enters at close 100 on bar 1 and bar 2
breaches the stop 95 (low 90). -/
def dataBug : List OHLCV :=
  [mkBar "2020-01-01" 100 100 100, mkBar "2020-01-02" 101 99 100, mkBar "2020-01-03" 96 90 95]

/-- Gene whose risk/reward field (3) disagrees with its percentage offsets
(stop 2 percent, target 4 percent); both indicator slots use the unimplemented
EMA kind (value 0), entry `ABOVE` with thresholds low enough to always fire
after warm-up, periods 1. -/
def gC7 : StrategyGene :=
  { primary_indicator := IndicatorType.EMA
    secondary_indicator := IndicatorType.EMA
    primary_period := 1
    secondary_period := 1
    primary_threshold := -50
    secondary_threshold := -50
    entry_condition := EntryCondition.ABOVE
    risk_reward := 3
    stop_loss_pct := 1 / 50
    take_profit_pct := 1 / 25 }

/-- Two flat bars at close 100. -/
def dataC7 : List OHLCV :=
  [mkBar "2021-01-01" 100 100 100, mkBar "2021-01-02" 100 100 100]

/-- The BUY signal `gC7` emits at index 1 on `dataC7`. -/
def sigC7 : TradeSignal :=
  ⟨SignalType.BUY, 1, 98, 104, "Evolved Strategy Signal"⟩

/-- Pathological gene: both periods zero and a cross-above condition, so the
warm-up gate never fires.  The primary indicator is RSI, whose period-0 value
is exactly the neutral `50` (the `end_index < period` guard fails and the empty
window hits the `total < 1e-10` early return — identically in the C++ and
here), so the first conjunct `50 > 0` of the cross condition holds and the
short-circuited `&&` really does go on to read `primary_values_[index - 1]` at
`index = 0`. -/
def gC8 : StrategyGene :=
  { primary_indicator := IndicatorType.RSI
    primary_period := 0
    secondary_period := 0
    primary_threshold := 0
    entry_condition := EntryCondition.CROSS_ABOVE }

/-- A single test bar. -/
def dataC8 : List OHLCV :=
  [mkBar "2020-01-01" 1 1 1]

/-- A default gene (fitness 0). -/
def gZero : StrategyGene := {}

/-- A gene of fitness 5. -/
def gFive : StrategyGene := { fitness := 5 }

/-- Three-gene population with fitnesses 0, 0, 5. -/
def popC6 : List StrategyGene :=
  [gZero, gZero, gFive]

/-- The identity draw stream: position `p` yields raw draw `p`. -/
def idRng : Rng :=
  fun p => p

/-- Simulator state holding a position entered at 100 with stop 95 and target
105. -/
def stC2 : Backtester.BtState :=
  ⟨true, 100, 95, 105, "2020-01-01", 0, 1000, [1000], fun _ => 0, 0, 0, []⟩

/-- One bar whose low breaches the stop 95 and whose high breaches the target
105 simultaneously. -/
def dataC2 : List OHLCV :=
  [mkBar "2020-01-02" 106 94 100]

/-- Test strategy for the never-touched-exit scenario: BUY with stop -1
(below every positive low) and target 1000000 (above every high). -/
def buyWide : Strategy :=
  fun _ i => ⟨SignalType.BUY, i, -1, 1000000, "wide"⟩

/-- Two ordinary bars (lows 1, highs 2): they never touch `buyWide`'s levels. -/
def dataC10 : List OHLCV :=
  [mkBar "2021-01-01" 2 1 1, mkBar "2021-01-02" 2 1 2]

lemma getD_map_range (f : Nat → ℚ) {n i : Nat} (hi : i < n) :
    ((List.range n).map f).getD i 0 = f i := by
  rw [List.getD_eq_getElem _ _ (by simpa using hi)]
  simp

lemma slideSum_eq_windowSum (data : List OHLCV) (P : Nat) (hP : 1 ≤ P) :
    ∀ k, Indicators.slideSum data P k = windowSum data k P := by
  intro k
  induction k with
  | zero => rfl
  | succ k ih =>
    obtain ⟨Q, rfl⟩ : ∃ Q, P = Q + 1 := ⟨P - 1, by omega⟩
    rw [Indicators.slideSum, ih]
    unfold windowSum
    rw [Finset.sum_range_succ' (fun j => closeAt data (k + j)) Q]
    rw [Finset.sum_range_succ (fun j => closeAt data (k + 1 + j)) Q]
    rw [Finset.sum_congr rfl (fun j _ => by rw [show k + (j + 1) = k + 1 + j by omega])]
    rw [show Q + 1 + k = k + 1 + Q by omega, show k + 0 = k by omega]
    ring

/-- C1: the arrays produced by the batch indicator computation agree at every
index with the point-wise indicator functions: for `i + 1 ≥ P` the batch SMA
value equals `SMA(series, i, P)` (exact rational equality, hence within the
claimed 1e-9 tolerance), for `i + 1 < P` it is the sentinel `0`, and the batch
RSI value equals `RSI(series, i, Q)` at every index, including the warm-up
neutral `50`.  The hypothesis `1 ≤ P` covers every period the program uses
(`P = 0` would make the C++ batch routine write `sma_values[SIZE_MAX]`). -/
theorem batch_agrees_with_pointwise (data : List OHLCV) (P Q i : Nat)
    (hP : 1 ≤ P) (hi : i < data.length) :
    (P ≤ i + 1 → (Indicators.batchSMA data P).getD i 0 = Indicators.SMA data i P) ∧
    (i + 1 < P → (Indicators.batchSMA data P).getD i 0 = 0) ∧
    (Indicators.batchRSI data Q).getD i 0 = Indicators.RSI data i Q := by
  refine ⟨?_, ?_, ?_⟩
  · intro hPi
    unfold Indicators.batchSMA
    rw [getD_map_range _ hi]
    unfold Indicators.batchSMAval Indicators.SMA
    rw [if_neg (by omega), if_pos (by omega), if_neg (by omega)]
    rw [slideSum_eq_windowSum data P hP]
  · intro hPi
    unfold Indicators.batchSMA
    rw [getD_map_range _ hi]
    unfold Indicators.batchSMAval
    rw [if_pos hPi]
  · unfold Indicators.batchRSI
    rw [getD_map_range _ hi]
    unfold Indicators.batchRSIval
    by_cases hiQ : i < Q
    · rw [if_pos hiQ]
      unfold Indicators.RSI
      rw [if_pos hiQ]
    · rw [if_neg hiQ]

/-- Witness for C1 at a concrete series, `P = 2`, `Q = 1`, `i = 2`. -/
theorem batch_agrees_with_pointwise_witness :
    (1 ≤ 2 ∧ 2 < dataW1.length) ∧
    ((2 ≤ 2 + 1 → (Indicators.batchSMA dataW1 2).getD 2 0 = Indicators.SMA dataW1 2 2) ∧
     (2 + 1 < 2 → (Indicators.batchSMA dataW1 2).getD 2 0 = 0) ∧
     (Indicators.batchRSI dataW1 1).getD 2 0 = Indicators.RSI dataW1 2 1) :=
  ⟨⟨by decide, by decide⟩,
   batch_agrees_with_pointwise dataW1 2 1 2 (by decide) (by decide)⟩

/-- C2: when a bar's low reaches-or-breaches the stop AND its high
reaches-or-breaches the target, the simulator closes at exactly the stop level
with realized PnL `stop - entry` (the stop branch is checked first), and the
fitness walk of the genetic optimizer resolves the same double hit to the stop
level as well. -/
theorem stop_precedence_on_double_hit (σ : Strategy) (data : List OHLCV) (i : Nat)
    (st : Backtester.BtState) (hpos : st.in_position = true)
    (hlo : (barAt data i).low ≤ st.stop_loss)
    (_hhi : st.take_profit ≤ (barAt data i).high) :
    ((Backtester.stepBar σ data i st).in_position = false ∧
     (Backtester.stepBar σ data i st).equity = st.equity + (st.stop_loss - st.entry_price) ∧
     (Backtester.stepBar σ data i st).trades
       = st.trades ++ [⟨st.entry_index, st.entry_date, st.entry_price, i, st.stop_loss,
                        st.stop_loss - st.entry_price, ExitKind.stop⟩]) ∧
    (∀ (bar : OHLCV) (stop tp : ℚ), bar.low ≤ stop → tp ≤ bar.high →
       gaExitPrice bar stop tp = stop) := by
  constructor
  · refine ⟨?_, ?_, ?_⟩ <;>
      simp [Backtester.stepBar, Backtester.closePosition, hpos, hlo]
  · intro bar stop tp h1 _
    simp [gaExitPrice, h1]

/-- Witness for C2: a bar with low 94 and high 106 against stop 95 and target
105 closes at 95 with PnL `95 - 100 = -5`. -/
theorem stop_precedence_on_double_hit_witness :
    (stC2.in_position = true ∧ (barAt dataC2 0).low ≤ stC2.stop_loss ∧
      stC2.take_profit ≤ (barAt dataC2 0).high) ∧
    ((Backtester.stepBar noneStrategy dataC2 0 stC2).in_position = false ∧
     (Backtester.stepBar noneStrategy dataC2 0 stC2).equity
       = stC2.equity + (stC2.stop_loss - stC2.entry_price) ∧
     (Backtester.stepBar noneStrategy dataC2 0 stC2).trades
       = stC2.trades ++ [⟨stC2.entry_index, stC2.entry_date, stC2.entry_price, 0, stC2.stop_loss,
                          stC2.stop_loss - stC2.entry_price, ExitKind.stop⟩]) ∧
    (∀ (bar : OHLCV) (stop tp : ℚ), bar.low ≤ stop → tp ≤ bar.high →
       gaExitPrice bar stop tp = stop) :=
  ⟨⟨by decide, by decide, by decide⟩,
   (stop_precedence_on_double_hit noneStrategy dataC2 0 stC2 (by decide) (by decide) (by decide)).1,
   (stop_precedence_on_double_hit noneStrategy dataC2 0 stC2 (by decide) (by decide) (by decide)).2⟩

lemma stepBar_curve_length (σ : Strategy) (data : List OHLCV) (i : Nat)
    (st : Backtester.BtState) :
    (Backtester.stepBar σ data i st).equity_curve.length = st.equity_curve.length + 1 := by
  simp only [Backtester.stepBar, Backtester.closePosition]
  split
  · split <;> simp
  · split
    · simp
    · split <;> simp

lemma stepBar_counters (σ : Strategy) (data : List OHLCV) (i : Nat)
    (st : Backtester.BtState) :
    (Backtester.stepBar σ data i st).total_trades = st.total_trades ∧
    (Backtester.stepBar σ data i st).winning_trades = st.winning_trades := by
  simp only [Backtester.stepBar, Backtester.closePosition]
  split
  · split <;> simp
  · split
    · simp
    · split <;> simp

lemma fold_curve_length (σ : Strategy) (data : List OHLCV) (l : List Nat)
    (st : Backtester.BtState) :
    ((l.foldl (fun st i => Backtester.stepBar σ data i st) st).equity_curve.length)
      = st.equity_curve.length + l.length := by
  induction l generalizing st with
  | nil => simp
  | cons a l ih =>
    rw [List.foldl_cons, ih, stepBar_curve_length]
    simp
    omega

lemma fold_counters (σ : Strategy) (data : List OHLCV) (l : List Nat)
    (st : Backtester.BtState) :
    ((l.foldl (fun st i => Backtester.stepBar σ data i st) st).total_trades = st.total_trades) ∧
    ((l.foldl (fun st i => Backtester.stepBar σ data i st) st).winning_trades = st.winning_trades) := by
  induction l generalizing st with
  | nil => exact ⟨rfl, rfl⟩
  | cons a l ih =>
    rw [List.foldl_cons]
    refine ⟨?_, ?_⟩
    · rw [(ih (Backtester.stepBar σ data a st)).1, (stepBar_counters σ data a st).1]
    · rw [(ih (Backtester.stepBar σ data a st)).2, (stepBar_counters σ data a st).2]

/-- C9 (amended): `run` seeds the equity curve with the initial equity before
the loop and appends exactly one value per bar index `1 .. n-1`, so the final
EquityCurve length is `max 1 n` — equal to the bar count for every non-empty
series, but `1` (not `0`) for an empty series. -/
theorem equity_curve_length (σ : Strategy) (data : List OHLCV) (e0 : ℚ) :
    (Backtester.run σ data e0).equity_curve.length = max 1 data.length := by
  simp only [Backtester.run]
  have hforced : ∀ st, (Backtester.closeForced data st).equity_curve = st.equity_curve :=
    fun st => rfl
  split
  · rw [hforced, fold_curve_length]
    simp [Backtester.initState]
    omega
  · rw [fold_curve_length]
    simp [Backtester.initState]
    omega

/-- C9 counterexample: on the empty series the equity curve has length 1 (the
seeded initial equity), not 0, so "EquityCurve length equals the number of bars
processed" fails for an empty series. -/
theorem equity_curve_empty_series_cex :
    (Backtester.run noneStrategy [] 1000).equity_curve.length = 1 ∧
    (Backtester.run noneStrategy [] 1000).equity_curve.length ≠ ([] : List OHLCV).length := by
  refine ⟨rfl, by decide⟩

/-- C5 (code bug): `Backtester::run` never increments `total_trades_` or
`winning_trades_`, so `getTotalTrades()` is `0` and `getWinRate()` is `0` after
every run — even on a run that demonstrably closes one trade (the ghost log
records exactly one realized close of a position entered at bar 1 and stopped
out at bar 2). -/
theorem trade_counters_never_updated :
    (∀ (σ : Strategy) (data : List OHLCV) (e0 : ℚ),
       Backtester.getTotalTrades (Backtester.run σ data e0) = 0 ∧
       Backtester.getWinRate (Backtester.run σ data e0) = 0) ∧
    (Backtester.run buyAtOne dataBug 1000).trades.length = 1 ∧
    Backtester.getTotalTrades (Backtester.run buyAtOne dataBug 1000) = 0 := by
  have hmain : ∀ (σ : Strategy) (data : List OHLCV) (e0 : ℚ),
      Backtester.getTotalTrades (Backtester.run σ data e0) = 0 ∧
      Backtester.getWinRate (Backtester.run σ data e0) = 0 := by
    intro σ data e0
    have hforced : ∀ st : Backtester.BtState,
        (Backtester.closeForced data st).total_trades = st.total_trades ∧
        (Backtester.closeForced data st).winning_trades = st.winning_trades :=
      fun st => ⟨rfl, rfl⟩
    have h0 : (Backtester.run σ data e0).total_trades = 0 := by
      simp only [Backtester.run]
      split
      · rw [(hforced _).1, (fold_counters σ data _ _).1]
        rfl
      · rw [(fold_counters σ data _ _).1]
        rfl
    refine ⟨h0, ?_⟩
    unfold Backtester.getWinRate
    rw [h0]
    simp
  exact ⟨hmain, by decide, (hmain buyAtOne dataBug 1000).1⟩

/-- C10: in the fitness walk of the genetic optimizer, a BUY whose stop and
target are never reached by any subsequent bar is simply never closed — no
forced liquidation happens, and the step leaves equity, trade counts and the
profit/loss lists exactly as if the signal had been NONE. -/
theorem ga_unclosed_buy_is_noop (σ : Strategy) (sizePct : ℚ) (data : List OHLCV)
    (st : FitState) (i : Nat)
    (hbuy : (σ data i).type = SignalType.BUY)
    (hmiss : ∀ j < data.length, i < j →
      hitsExit (barAt data j) (σ data i).stop_loss (σ data i).take_profit = false) :
    fitStep σ sizePct data st i = fitStep noneStrategy sizePct data st i ∧
    (fitStep σ sizePct data st i).equity = st.equity ∧
    (fitStep σ sizePct data st i).total_trades = st.total_trades ∧
    (fitStep σ sizePct data st i).winning_trades = st.winning_trades ∧
    (fitStep σ sizePct data st i).profits = st.profits ∧
    (fitStep σ sizePct data st i).losses = st.losses := by
  have hfe : findExit data (σ data i).stop_loss (σ data i).take_profit (i + 1)
      (data.length - (i + 1)) = none := by
    apply List.find?_eq_none.mpr
    intro j hj
    have hj' := List.mem_range'_1.mp hj
    simp only [Bool.not_eq_true]
    exact hmiss j (by omega) (by omega)
  have h1 : fitStep σ sizePct data st i = fitStep noneStrategy sizePct data st i := by
    simp only [fitStep, hbuy, hfe, noneStrategy]
  refine ⟨h1, ?_, ?_, ?_, ?_, ?_⟩ <;>
    (rw [h1]; simp only [fitStep, noneStrategy]; split <;> rfl)

/-- Witness for C10: a BUY with stop `-1` and target `1000000` on a two-bar
series whose lows/highs never touch those levels. -/
theorem ga_unclosed_buy_is_noop_witness :
    ((buyWide dataC10 0).type = SignalType.BUY ∧
     (∀ j < dataC10.length, 0 < j →
        hitsExit (barAt dataC10 j) (buyWide dataC10 0).stop_loss
          (buyWide dataC10 0).take_profit = false)) ∧
    fitStep buyWide 1 dataC10 initFitState 0 = fitStep noneStrategy 1 dataC10 initFitState 0 ∧
    (fitStep buyWide 1 dataC10 initFitState 0).equity = initFitState.equity ∧
    (fitStep buyWide 1 dataC10 initFitState 0).total_trades = initFitState.total_trades ∧
    (fitStep buyWide 1 dataC10 initFitState 0).winning_trades = initFitState.winning_trades ∧
    (fitStep buyWide 1 dataC10 initFitState 0).profits = initFitState.profits ∧
    (fitStep buyWide 1 dataC10 initFitState 0).losses = initFitState.losses :=
  ⟨⟨by decide, by decide⟩,
   (ga_unclosed_buy_is_noop buyWide 1 dataC10 initFitState 0 (by decide) (by decide))⟩

lemma readBar_close {data : List OHLCV} {i : Nat} {bar : OHLCV}
    (h : readBar data i = some bar) : bar.close = closeAt data i := by
  unfold readBar at h
  unfold closeAt barAt
  rw [List.getD_eq_getElem?_getD, ← List.get?_eq_getElem?, h]
  rfl

/-- C7 counterexample: the gene-driven variant emits a BUY whose take-profit
distance (4) is NOT the stop distance times the gene's risk/reward ratio
(2 · 3 = 6): `EvolvedStrategy::calculateStopLoss/TakeProfit` use only
`stop_loss_pct` and `take_profit_pct` and never read `risk_reward_ratio`. -/
theorem risk_reward_not_used_cex :
    EvolvedStrategy.generateSignal gC7 dataC7 1 = some sigC7 ∧
    sigC7.type = SignalType.BUY ∧
    (closeAt dataC7 1 - sigC7.stop_loss) * gC7.risk_reward
      - (sigC7.take_profit - closeAt dataC7 1) = 2 ∧
    sigC7.take_profit - closeAt dataC7 1
      ≠ (closeAt dataC7 1 - sigC7.stop_loss) * gC7.risk_reward := by
  refine ⟨by with_unfolding_all decide, rfl, by with_unfolding_all decide,
    by with_unfolding_all decide⟩

/-- C7 (amended): stop/target on a BUY are percentage offsets from the
triggering close.  For the GoldenFoundationStrategy the target distance equals
the stop distance times the configured risk/reward ratio, with stop offset
`0.005/risk_reward` of the entry.  For the gene-driven variant the offsets are
`stop_loss_pct` below and `take_profit_pct` above the close — the gene's
risk/reward field is not used, so the distance ratio is
`take_profit_pct / stop_loss_pct` (stated multiplicatively below), not
`risk_reward_ratio`. -/
theorem stop_target_offsets :
    (∀ rr entry : ℚ,
       goldenTarget rr entry - entry = (entry - goldenStop rr entry) * rr ∧
       entry - goldenStop rr entry = entry * (5 / 1000 / rr)) ∧
    (∀ (g : StrategyGene) (data : List OHLCV) (index : Nat) (sig : TradeSignal),
       EvolvedStrategy.generateSignal g data index = some sig →
       sig.type = SignalType.BUY →
       sig.stop_loss = closeAt data index * (1 - g.stop_loss_pct) ∧
       sig.take_profit = closeAt data index * (1 + g.take_profit_pct) ∧
       (sig.take_profit - closeAt data index) * g.stop_loss_pct
         = (closeAt data index - sig.stop_loss) * g.take_profit_pct) := by
  constructor
  · intro rr entry
    constructor
    · unfold goldenTarget
      ring
    · unfold goldenStop
      ring
  · intro g data index sig h htype
    unfold EvolvedStrategy.generateSignal at h
    split at h
    · rw [Option.some.injEq] at h
      subst h
      simp at htype
    · split at h
      · exact absurd h (by simp)
      · rename_i hread
        split at h
        · exact absurd h (by simp)
        · rename_i bar hbar
          rw [Option.some.injEq] at h
          subst h
          have hc := readBar_close hbar
          refine ⟨by rw [hc], by rw [hc], ?_⟩
          rw [hc]
          ring
      · rw [Option.some.injEq] at h
        subst h
        simp at htype

/-- Witness for C7 (amended) at the concrete BUY emitted by `gC7`. -/
theorem stop_target_offsets_witness :
    (EvolvedStrategy.generateSignal gC7 dataC7 1 = some sigC7 ∧
      sigC7.type = SignalType.BUY) ∧
    (sigC7.stop_loss = closeAt dataC7 1 * (1 - gC7.stop_loss_pct) ∧
     sigC7.take_profit = closeAt dataC7 1 * (1 + gC7.take_profit_pct) ∧
     (sigC7.take_profit - closeAt dataC7 1) * gC7.stop_loss_pct
       = (closeAt dataC7 1 - sigC7.stop_loss) * gC7.take_profit_pct) :=
  ⟨⟨by with_unfolding_all decide, rfl⟩,
   stop_target_offsets.2 gC7 dataC7 1 sigC7 (by with_unfolding_all decide) rfl⟩

lemma primaryValues_length (g : StrategyGene) (data : List OHLCV) :
    (EvolvedStrategy.primaryValues g data).length = data.length := by
  simp [EvolvedStrategy.primaryValues]

lemma secondaryValues_length (g : StrategyGene) (data : List OHLCV) :
    (EvolvedStrategy.secondaryValues g data).length = data.length := by
  simp [EvolvedStrategy.secondaryValues]

lemma readIdx_isSome {xs : List ℚ} {i : Nat} (h : i < xs.length) :
    ∃ v, readIdx xs i = some v := by
  unfold readIdx
  rw [List.get?_eq_getElem?]
  exact ⟨xs[i], List.getElem?_eq_getElem h⟩

lemma readBar_isSome {data : List OHLCV} {i : Nat} (h : i < data.length) :
    ∃ bar, readBar data i = some bar := by
  unfold readBar
  rw [List.get?_eq_getElem?]
  exact ⟨data[i], List.getElem?_eq_getElem h⟩

/-- C8 counterexample: for `gC8` (both periods 0, RSI primary, cross-above
entry with threshold 0) the warm-up gate never fires at index 0; the primary
value is the RSI period-0 neutral `50`, so the first conjunct `50 > 0` of the
cross condition holds and the short-circuited `&&` proceeds to read
`primary_values_[index - 1]` with `index - 1` wrapping to `2^64 - 1` — an
out-of-bounds access, modelled as `none`.  So `generateSignal` is not total on
every gene, contrary to the claim. -/
theorem zero_period_cross_faults_cex :
    (EvolvedStrategy.primaryValues gC8 dataC8).getD 0 0 = 50 ∧
    EvolvedStrategy.generateSignal gC8 dataC8 0 = none := by
  constructor
  · with_unfolding_all decide
  · with_unfolding_all decide

/-- C8 (amended): for every gene whose period maximum is nonzero after the
`int → size_t` conversion — in particular every gene the optimizer creates,
whose periods lie in [5, 200] — `generateSignal` is total at every in-range
index: it never reads out of bounds (all accesses, including the `index - 1`
reads of the cross conditions, are in bounds), and below the warm-up gate
`index < max(primary_period, secondary_period)` it returns the NONE signal
without evaluating the entry condition. -/
theorem generateSignal_total (g : StrategyGene) (data : List OHLCV) (index : Nat)
    (hmax : toSizeT (max g.primary_period g.secondary_period) ≠ 0)
    (hidx : index < data.length) :
    (EvolvedStrategy.generateSignal g data index).isSome = true ∧
    (index < toSizeT (max g.primary_period g.secondary_period) →
      EvolvedStrategy.generateSignal g data index
        = some ⟨SignalType.NONE, index, 0, 0, "Not enough data"⟩) := by
  constructor
  · unfold EvolvedStrategy.generateSignal
    split
    · rfl
    · rename_i hge
      have hpos : 1 ≤ index := by omega
      have hce : ∃ b, EvolvedStrategy.checkEntryCondition g data index = some b := by
        unfold EvolvedStrategy.checkEntryCondition
        obtain ⟨v1, hv1⟩ := readIdx_isSome
          (show index < (EvolvedStrategy.primaryValues g data).length by
            rw [primaryValues_length]; exact hidx)
        obtain ⟨v2, hv2⟩ := readIdx_isSome
          (show index < (EvolvedStrategy.secondaryValues g data).length by
            rw [secondaryValues_length]; exact hidx)
        obtain ⟨bar, hbar⟩ := readBar_isSome hidx
        have hsub : idxSub1 index = index - 1 := by
          unfold idxSub1
          rw [if_neg (by omega)]
        obtain ⟨vp, hvp⟩ := readIdx_isSome
          (show idxSub1 index < (EvolvedStrategy.primaryValues g data).length by
            rw [primaryValues_length, hsub]; omega)
        cases g.entry_condition with
        | CROSS_ABOVE =>
          by_cases hc : g.primary_threshold < v1
          · simp [hv1, hv2, hbar, hc, hvp]
          · simp [hv1, hv2, hbar, hc]
        | CROSS_BELOW =>
          by_cases hc : v1 < g.primary_threshold
          · simp [hv1, hv2, hbar, hc, hvp]
          · simp [hv1, hv2, hbar, hc]
        | ABOVE => simp [hv1, hv2, hbar]
        | BELOW => simp [hv1, hv2, hbar]
        | INSIDE_BB => simp [hv1, hv2, hbar]
        | OUTSIDE_BB => simp [hv1, hv2, hbar]
      obtain ⟨b, hb⟩ := hce
      rw [hb]
      cases b
      · rfl
      · obtain ⟨bar, hbar⟩ := readBar_isSome hidx
        rw [hbar]
        rfl
  · intro hlt
    unfold EvolvedStrategy.generateSignal
    rw [if_pos hlt]

/-- Witness for C8 (amended) at gene `gC7` (periods 1) and index 1 of a
two-bar series. -/
theorem generateSignal_total_witness :
    (toSizeT (max gC7.primary_period gC7.secondary_period) ≠ 0 ∧ 1 < dataC7.length) ∧
    ((EvolvedStrategy.generateSignal gC7 dataC7 1).isSome = true ∧
     (1 < toSizeT (max gC7.primary_period gC7.secondary_period) →
       EvolvedStrategy.generateSignal gC7 dataC7 1
         = some ⟨SignalType.NONE, 1, 0, 0, "Not enough data"⟩)) :=
  ⟨⟨by decide, by decide⟩,
   generateSignal_total gC7 dataC7 1 (by decide) (by decide)⟩

lemma selectGo_spec (pop : List StrategyGene) (r : Rng) :
    ∀ k pos, ((GeneticAlgorithm.selectGo pop r k pos).1.length = k) ∧
      ((GeneticAlgorithm.selectGo pop r k pos).2 = pos + 3 * k) := by
  intro k
  induction k with
  | zero =>
    intro pos
    exact ⟨rfl, by simp [GeneticAlgorithm.selectGo]⟩
  | succ k ih =>
    intro pos
    refine ⟨?_, ?_⟩
    · simp [GeneticAlgorithm.selectGo, (ih (pos + 3)).1]
    · simp only [GeneticAlgorithm.selectGo, (ih (pos + 3)).2]
      omega

lemma selectGo_getD (pop : List StrategyGene) (r : Rng) :
    ∀ k pos j, j < k →
      (GeneticAlgorithm.selectGo pop r k pos).1.getD j default
        = pop.getD (GeneticAlgorithm.tournamentIdx pop r (pos + 3 * j)) default := by
  intro k
  induction k with
  | zero =>
    intro pos j hj
    omega
  | succ k ih =>
    intro pos j hj
    cases j with
    | zero =>
      simp [GeneticAlgorithm.selectGo]
    | succ j =>
      have h := ih (pos + 3) j (by omega)
      rw [show pos + 3 + 3 * j = pos + 3 * (j + 1) by omega] at h
      simpa [GeneticAlgorithm.selectGo] using h

lemma tournamentIdx_beats_draws (pop : List StrategyGene) (r : Rng) (p : Nat) :
    (pop.getD (drawIdx r p pop.length) default).fitness
        ≤ (pop.getD (GeneticAlgorithm.tournamentIdx pop r p) default).fitness ∧
    (pop.getD (drawIdx r (p + 1) pop.length) default).fitness
        ≤ (pop.getD (GeneticAlgorithm.tournamentIdx pop r p) default).fitness ∧
    (pop.getD (drawIdx r (p + 2) pop.length) default).fitness
        ≤ (pop.getD (GeneticAlgorithm.tournamentIdx pop r p) default).fitness := by
  simp only [GeneticAlgorithm.tournamentIdx]
  split_ifs <;> refine ⟨?_, ?_, ?_⟩ <;> linarith

/-- C6 counterexample: on the population with fitnesses (0, 0, 5) and the
identity draw stream, the implemented selection differs from the size-2
tournament the claim describes: the third draw of the first slot finds the
fitness-5 gene, which a two-draw tournament would not have seen. -/
theorem tournament_size_two_cex :
    (GeneticAlgorithm.selectParents popC6 idRng 0).1
      ≠ (GeneticAlgorithm.selectParentsSpecSizeTwo popC6 idRng 0).1 := by
  with_unfolding_all decide

/-- C6 (amended): each slot of the next population is filled by a tournament
of size 3: one candidate drawn uniformly at random is compared against exactly
TWO further uniform draws, keeping the higher-fitness gene at each comparison;
this is repeated N (population size) times, consuming three draws per slot, and
the selected gene's fitness is at least that of each of the three candidates
drawn for its slot. -/
theorem tournament_is_size_three (pop : List StrategyGene) (r : Rng) (pos : Nat) :
    (GeneticAlgorithm.selectParents pop r pos).1.length = pop.length ∧
    (GeneticAlgorithm.selectParents pop r pos).2 = pos + 3 * pop.length ∧
    (∀ k, k < pop.length →
      (GeneticAlgorithm.selectParents pop r pos).1.getD k default
        = pop.getD (GeneticAlgorithm.tournamentIdx pop r (pos + 3 * k)) default) ∧
    (∀ p : Nat,
      (pop.getD (drawIdx r p pop.length) default).fitness
          ≤ (pop.getD (GeneticAlgorithm.tournamentIdx pop r p) default).fitness ∧
      (pop.getD (drawIdx r (p + 1) pop.length) default).fitness
          ≤ (pop.getD (GeneticAlgorithm.tournamentIdx pop r p) default).fitness ∧
      (pop.getD (drawIdx r (p + 2) pop.length) default).fitness
          ≤ (pop.getD (GeneticAlgorithm.tournamentIdx pop r p) default).fitness) :=
  ⟨(selectGo_spec pop r pop.length pos).1,
   (selectGo_spec pop r pop.length pos).2,
   fun k hk => selectGo_getD pop r pop.length pos k hk,
   fun p => tournamentIdx_beats_draws pop r p⟩

/-- Witness for C6 (amended) on the concrete population `popC6`: slot 0 of the
selection equals the tournament winner of draws 0, 1, 2. -/
theorem tournament_is_size_three_witness :
    (0 < popC6.length) ∧
    (GeneticAlgorithm.selectParents popC6 idRng 0).1.getD 0 default
      = popC6.getD (GeneticAlgorithm.tournamentIdx popC6 idRng (0 + 3 * 0)) default :=
  ⟨by decide, (tournament_is_size_three popC6 idRng 0).2.2.1 0 (by decide)⟩

lemma maxEltFrom_idx_lt (gs : List StrategyGene) :
    ∀ (ci bi : Nat) (bg : StrategyGene), bi < ci →
      (GeneticAlgorithm.maxEltFrom gs ci (bi, bg)).1 < ci + gs.length := by
  induction gs with
  | nil =>
    intro ci bi bg h
    simpa [GeneticAlgorithm.maxEltFrom] using h
  | cons g gs ih =>
    intro ci bi bg h
    simp only [GeneticAlgorithm.maxEltFrom]
    have hlt : (GeneticAlgorithm.maxEltFrom gs (ci + 1)
        (if bg.fitness < g.fitness then (ci, g) else (bi, bg))).1 < ci + 1 + gs.length := by
      by_cases hif : bg.fitness < g.fitness
      · rw [if_pos hif]
        exact ih (ci + 1) ci g (by omega)
      · rw [if_neg hif]
        exact ih (ci + 1) bi bg (by omega)
    simp only [List.length_cons]
    omega

lemma maxElt_idx_lt (pop : List StrategyGene) (h : pop ≠ []) :
    (GeneticAlgorithm.maxElt pop).1 < pop.length := by
  cases pop with
  | nil => exact absurd rfl h
  | cons g gs =>
    have hb := maxEltFrom_idx_lt gs 1 0 g (by omega)
    simp only [GeneticAlgorithm.maxElt, List.length_cons]
    omega

lemma mem_set_self {l : List StrategyGene} {i : Nat} (h : i < l.length) (a : StrategyGene) :
    a ∈ l.set i a := by
  have h2 : i < (l.set i a).length := by simpa using h
  have h3 : (l.set i a)[i] = a := List.getElem_set_self ..
  have h4 := List.getElem_mem h2
  rwa [h3] at h4

/-- C4: the all-time-best fitness tracked by the genetic algorithm is
non-decreasing across generations: one generation never lowers it (for every
fitness function, draw stream and rates), the recorded best-ever gene is
replaced only by a gene of strictly higher fitness, the best fitness after `k`
generations is monotone in `k`, and elitism overwrites the current best slot
(the `max_element` position) with the historical best exactly when the
historical best's fitness exceeds the current population's best. -/
theorem best_fitness_monotone (f : StrategyGene → ℚ) (r : Rng) (mrate crate : ℚ) :
    (∀ st : GeneticAlgorithm.GAState,
       st.best_strategy.fitness
         ≤ (GeneticAlgorithm.evolveGen f r mrate crate st).best_strategy.fitness) ∧
    (∀ st : GeneticAlgorithm.GAState,
       (GeneticAlgorithm.evolveGen f r mrate crate st).best_strategy = st.best_strategy ∨
       st.best_strategy.fitness
         < (GeneticAlgorithm.evolveGen f r mrate crate st).best_strategy.fitness) ∧
    (∀ (st : GeneticAlgorithm.GAState) (k : Nat),
       ((GeneticAlgorithm.evolveGen f r mrate crate)^[k] st).best_strategy.fitness
         ≤ ((GeneticAlgorithm.evolveGen f r mrate crate)^[k + 1] st).best_strategy.fitness) ∧
    (∀ (pop : List StrategyGene) (bestEver : StrategyGene),
       (GeneticAlgorithm.maxElt pop).2.fitness < bestEver.fitness →
         GeneticAlgorithm.elitism pop bestEver
           = pop.set (GeneticAlgorithm.maxElt pop).1 bestEver ∧
         (pop ≠ [] → bestEver ∈ GeneticAlgorithm.elitism pop bestEver)) := by
  have hstep : ∀ st : GeneticAlgorithm.GAState,
      st.best_strategy.fitness
        ≤ (GeneticAlgorithm.evolveGen f r mrate crate st).best_strategy.fitness := by
    intro st
    simp only [GeneticAlgorithm.evolveGen]
    split
    · rename_i hlt
      exact le_of_lt hlt
    · exact le_refl _
  have hrepl : ∀ st : GeneticAlgorithm.GAState,
      (GeneticAlgorithm.evolveGen f r mrate crate st).best_strategy = st.best_strategy ∨
      st.best_strategy.fitness
        < (GeneticAlgorithm.evolveGen f r mrate crate st).best_strategy.fitness := by
    intro st
    simp only [GeneticAlgorithm.evolveGen]
    split
    · rename_i hlt
      exact Or.inr hlt
    · exact Or.inl rfl
  refine ⟨hstep, hrepl, ?_, ?_⟩
  · intro st k
    rw [Function.iterate_succ_apply']
    exact hstep _
  · intro pop bestEver hgt
    constructor
    · unfold GeneticAlgorithm.elitism
      rw [if_pos hgt]
    · intro hne
      unfold GeneticAlgorithm.elitism
      rw [if_pos hgt]
      exact mem_set_self (maxElt_idx_lt pop hne) bestEver

/-- Witness for C4: elitism on the one-gene population `[gZero]` (fitness 0)
with historical best `gFive` (fitness 5) overwrites slot 0. -/
theorem best_fitness_monotone_witness :
    ((GeneticAlgorithm.maxElt [gZero]).2.fitness < gFive.fitness) ∧
    (GeneticAlgorithm.elitism [gZero] gFive
       = [gZero].set (GeneticAlgorithm.maxElt [gZero]).1 gFive ∧
     ([gZero] ≠ [] → gFive ∈ GeneticAlgorithm.elitism [gZero] gFive)) :=
  ⟨by decide,
   (best_fitness_monotone (fun _ => 0) idRng 0 0).2.2.2 [gZero] gFive (by decide)⟩

/-- Loop invariant of `Backtester::run` after processing bars `1 .. i-1`:
recorded trades are pairwise disjoint in time and fully closed before `i`, the
yearly map is the replay of the trade log, and an open position postdates every
recorded exit. -/
structure BtInv (data : List OHLCV) (i : Nat) (st : Backtester.BtState) : Prop where
  ordered : st.trades.Chain' (fun a b => a.exitIndex < b.entryIndex)
  closed : ∀ t ∈ st.trades, t.entryIndex < t.exitIndex ∧ t.exitIndex < i ∧
    t.entryDate = tsAt data t.entryIndex ∧ t.pnl = t.exitPrice - t.entryPrice ∧
    t.kind ≠ ExitKind.forced
  openOk : st.in_position = true → st.entry_index < i ∧
    st.entry_date = tsAt data st.entry_index ∧
    (∀ t ∈ st.trades, t.exitIndex < st.entry_index)
  yearly : st.yearly_pnl = yearlyOfTrades st.trades

lemma chain'_append_singleton {l : List Trade} {t : Trade}
    (hl : l.Chain' (fun a b => a.exitIndex < b.entryIndex))
    (h : ∀ u ∈ l, u.exitIndex < t.entryIndex) :
    (l ++ [t]).Chain' (fun a b => a.exitIndex < b.entryIndex) := by
  rw [List.chain'_append]
  refine ⟨hl, List.chain'_singleton t, ?_⟩
  intro x hx y hy
  have hxl : x ∈ l := List.mem_of_mem_getLast? hx
  have hyt : t = y := by simpa using hy
  subst hyt
  exact h x hxl

lemma yearlyOfTrades_append (l : List Trade) (t : Trade) :
    yearlyOfTrades (l ++ [t])
      = Backtester.addToYearlyPnL (yearlyOfTrades l) t.entryDate t.pnl := by
  unfold yearlyOfTrades
  rw [List.foldl_append]
  rfl

lemma btInv_mono {data : List OHLCV} {i : Nat} {st : Backtester.BtState}
    (h : BtInv data i st) : BtInv data (i + 1) st := by
  constructor
  · exact h.ordered
  · intro t ht
    obtain ⟨h1, h2, h3, h4, h5⟩ := h.closed t ht
    exact ⟨h1, by omega, h3, h4, h5⟩
  · intro hp
    obtain ⟨h1, h2, h3⟩ := h.openOk hp
    exact ⟨by omega, h2, h3⟩
  · exact h.yearly

lemma btInv_close {data : List OHLCV} {i : Nat} {st : Backtester.BtState}
    (h : BtInv data i st) (hp : st.in_position = true)
    (price : ℚ) (k : ExitKind) (hk : k ≠ ExitKind.forced) :
    BtInv data (i + 1) (Backtester.closePosition st i price k) := by
  obtain ⟨hei, hed, hex⟩ := h.openOk hp
  constructor
  · exact chain'_append_singleton h.ordered (fun u hu => hex u hu)
  · intro t ht
    rcases List.mem_append.mp ht with h1 | h1
    · obtain ⟨a, b, c, d, e⟩ := h.closed t h1
      exact ⟨a, by omega, c, d, e⟩
    · have heq : t = ⟨st.entry_index, st.entry_date, st.entry_price, i, price,
          price - st.entry_price, k⟩ := by simpa using h1
      subst heq
      exact ⟨hei, show i < i + 1 by omega, hed, rfl, hk⟩
  · intro hp'
    simp [Backtester.closePosition] at hp'
  · show Backtester.addToYearlyPnL st.yearly_pnl st.entry_date (price - st.entry_price)
      = yearlyOfTrades (st.trades ++ [⟨st.entry_index, st.entry_date, st.entry_price, i, price,
          price - st.entry_price, k⟩])
    rw [yearlyOfTrades_append, ← h.yearly]

lemma btInv_of_curve {data : List OHLCV} {i : Nat} {st : Backtester.BtState} {c : List ℚ}
    (h : BtInv data i st) : BtInv data i { st with equity_curve := c } := by
  constructor
  · exact h.ordered
  · exact h.closed
  · exact h.openOk
  · exact h.yearly

lemma btInv_step (σ : Strategy) (data : List OHLCV) (i : Nat) (st : Backtester.BtState)
    (h : BtInv data i st) :
    BtInv data (i + 1) (Backtester.stepBar σ data i st) := by
  unfold Backtester.stepBar
  apply btInv_of_curve
  split
  · dsimp only
    split
    · -- BUY arm: the state opens a position at bar i
      constructor
      · exact h.ordered
      · intro t ht
        obtain ⟨h1, h2, h3, h4, h5⟩ := h.closed t ht
        exact ⟨h1, by omega, h3, h4, h5⟩
      · intro _
        refine ⟨?_, rfl, ?_⟩
        · show i < i + 1
          omega
        · intro t ht
          exact (h.closed t ht).2.1
      · exact h.yearly
    · exact btInv_mono h
  · rename_i hip
    have hp : st.in_position = true := by
      cases hb : st.in_position
      · exact absurd hb hip
      · rfl
    dsimp only
    split
    · exact btInv_close h hp st.stop_loss ExitKind.stop (by simp)
    · split
      · exact btInv_close h hp st.take_profit ExitKind.target (by simp)
      · exact btInv_mono h

lemma btInv_init (data : List OHLCV) (e0 : ℚ) : BtInv data 1 (Backtester.initState e0) := by
  constructor
  · simp [Backtester.initState]
  · intro t ht
    simp [Backtester.initState] at ht
  · intro hp
    simp [Backtester.initState] at hp
  · rfl

lemma btInv_fold (σ : Strategy) (data : List OHLCV) :
    ∀ (k i : Nat) (st : Backtester.BtState), BtInv data i st →
      BtInv data (i + k)
        ((List.range' i k).foldl (fun st j => Backtester.stepBar σ data j st) st) := by
  intro k
  induction k with
  | zero =>
    intro i st h
    simpa using h
  | succ k ih =>
    intro i st h
    rw [List.range'_succ, List.foldl_cons]
    have hrec := ih (i + 1) (Backtester.stepBar σ data i st) (btInv_step σ data i st h)
    rw [show i + 1 + k = i + (k + 1) by omega] at hrec
    exact hrec

lemma yearly_fold_apply :
    ∀ (l : List Trade) (m : Int → ℚ) (y : Int), (∀ t ∈ l, validDate t.entryDate) →
      (l.foldl (fun m t => Backtester.addToYearlyPnL m t.entryDate t.pnl) m) y
        = m y + ((l.filter fun t => Backtester.parsedYear t.entryDate = y).map Trade.pnl).sum := by
  intro l
  induction l with
  | nil =>
    intro m y _
    simp
  | cons t l ih =>
    intro m y h
    rw [List.foldl_cons, ih _ y (fun u hu => h u (List.mem_cons_of_mem t hu))]
    obtain ⟨h4, hy⟩ := h t (List.mem_cons_self ..)
    unfold Backtester.addToYearlyPnL
    rw [if_pos h4, if_pos hy]
    by_cases hcase : Backtester.parsedYear t.entryDate = y
    · rw [List.filter_cons_of_pos (by simpa using hcase), if_pos hcase.symm]
      simp only [List.map_cons, List.sum_cons]
      ring
    · rw [List.filter_cons_of_neg (by simpa using hcase),
        if_neg (fun contra => hcase contra.symm)]

lemma yearlyOfTrades_apply (l : List Trade) (h : ∀ t ∈ l, validDate t.entryDate) (y : Int) :
    yearlyOfTrades l y
      = ((l.filter fun t => Backtester.parsedYear t.entryDate = y).map Trade.pnl).sum := by
  unfold yearlyOfTrades
  rw [yearly_fold_apply l (fun _ => 0) y h]
  simp

/-- C3: across a full `Backtester::run` the recorded trades are pairwise
disjoint in time (each closes strictly before the next opens — so no position
is ever opened while one is open), the simulator ends flat (every opened
position was closed, by the stop/target check on a later bar or by the forced
close at the final bar's close price), and the yearly PnL map is exactly the
replay of the closed trades — each trade accumulated into the single bucket
keyed by the calendar year parsed from its ENTRY bar's timestamp (the final
conjunct, under the spec's assumption that timestamps carry a valid
`YYYY`-prefixed year). -/
theorem simulator_position_invariants (σ : Strategy) (data : List OHLCV) (e0 : ℚ) :
    (Backtester.run σ data e0).in_position = false ∧
    (Backtester.run σ data e0).trades.Chain' (fun a b => a.exitIndex < b.entryIndex) ∧
    (∀ t ∈ (Backtester.run σ data e0).trades,
       t.entryIndex ≤ t.exitIndex ∧ t.exitIndex < data.length ∧
       t.entryDate = tsAt data t.entryIndex ∧
       t.pnl = t.exitPrice - t.entryPrice ∧
       (t.kind = ExitKind.forced →
         t.exitIndex = data.length - 1 ∧ t.exitPrice = closeAt data (data.length - 1)) ∧
       (t.kind ≠ ExitKind.forced → t.entryIndex < t.exitIndex)) ∧
    (Backtester.run σ data e0).yearly_pnl = yearlyOfTrades (Backtester.run σ data e0).trades ∧
    ((∀ j, j < data.length → validDate (tsAt data j)) →
      ∀ y : Int, (Backtester.run σ data e0).yearly_pnl y
        = (((Backtester.run σ data e0).trades.filter
            fun t => Backtester.parsedYear t.entryDate = y).map Trade.pnl).sum) := by
  have hstart := btInv_fold σ data (data.length - 1) 1 (Backtester.initState e0)
    (btInv_init data e0)
  set stN := (List.range' 1 (data.length - 1)).foldl
      (fun st j => Backtester.stepBar σ data j st) (Backtester.initState e0) with hstN
  have hrun : Backtester.run σ data e0
      = if stN.in_position = true then Backtester.closeForced data stN else stN := rfl
  rcases Nat.eq_zero_or_pos data.length with hn0 | hn1
  · have hempty : stN = Backtester.initState e0 := by
      rw [hstN, hn0]
      rfl
    have hflat : stN.in_position = false := by
      rw [hempty]
      rfl
    rw [hrun, hflat, if_neg Bool.false_ne_true, hempty]
    refine ⟨rfl, List.chain'_nil, ?_, rfl, ?_⟩
    · intro t ht
      simp [Backtester.initState] at ht
    · intro _ y
      simp [Backtester.initState, yearlyOfTrades]
  · have hInv : BtInv data (1 + (data.length - 1)) stN := hstart
    rw [show 1 + (data.length - 1) = data.length by omega] at hInv
    cases hb : stN.in_position
    · rw [hrun, hb, if_neg Bool.false_ne_true]
      refine ⟨hb, hInv.ordered, ?_, hInv.yearly, ?_⟩
      · intro t ht
        obtain ⟨a, b, c, d, e⟩ := hInv.closed t ht
        exact ⟨by omega, by omega, c, d, fun hf => absurd hf e, fun _ => a⟩
      · intro hwf y
        rw [hInv.yearly]
        apply yearlyOfTrades_apply
        intro t ht
        obtain ⟨a, b, c, _, _⟩ := hInv.closed t ht
        rw [c]
        exact hwf t.entryIndex (by omega)
    · rw [hrun, hb, if_pos rfl]
      obtain ⟨hei, hed, hex⟩ := hInv.openOk hb
      have htr : (Backtester.closeForced data stN).trades
          = stN.trades ++ [⟨stN.entry_index, stN.entry_date, stN.entry_price,
              data.length - 1, closeAt data (data.length - 1),
              closeAt data (data.length - 1) - stN.entry_price, ExitKind.forced⟩] := rfl
      have hclosed : ∀ t ∈ (Backtester.closeForced data stN).trades,
          t.entryIndex ≤ t.exitIndex ∧ t.exitIndex < data.length ∧
          t.entryDate = tsAt data t.entryIndex ∧
          t.pnl = t.exitPrice - t.entryPrice ∧
          (t.kind = ExitKind.forced →
            t.exitIndex = data.length - 1 ∧
            t.exitPrice = closeAt data (data.length - 1)) ∧
          (t.kind ≠ ExitKind.forced → t.entryIndex < t.exitIndex) := by
        intro t ht
        rw [htr] at ht
        rcases List.mem_append.mp ht with h1 | h1
        · obtain ⟨a, b, c, d, e⟩ := hInv.closed t h1
          exact ⟨by omega, by omega, c, d, fun hf => absurd hf e, fun _ => a⟩
        · have heq : t = ⟨stN.entry_index, stN.entry_date, stN.entry_price,
              data.length - 1, closeAt data (data.length - 1),
              closeAt data (data.length - 1) - stN.entry_price, ExitKind.forced⟩ := by
            simpa using h1
          subst heq
          exact ⟨show stN.entry_index ≤ data.length - 1 by omega,
            show data.length - 1 < data.length by omega,
            hed, rfl, fun _ => ⟨rfl, rfl⟩, fun hne => absurd rfl hne⟩
      have hyear : (Backtester.closeForced data stN).yearly_pnl
          = yearlyOfTrades (Backtester.closeForced data stN).trades := by
        rw [htr, yearlyOfTrades_append, ← hInv.yearly]
        rfl
      refine ⟨rfl, ?_, hclosed, hyear, ?_⟩
      · rw [htr]
        exact chain'_append_singleton hInv.ordered hex
      · intro hwf y
        rw [hyear]
        apply yearlyOfTrades_apply
        intro t ht
        obtain ⟨a, b, c, _⟩ := hclosed t ht
        rw [c]
        exact hwf t.entryIndex (by omega)

/-- Witness for C3 on the concrete run that closes one trade entered in 2020:
the simulator ends flat and the 2020 bucket equals the filtered trade-PnL sum. -/
theorem simulator_position_invariants_witness :
    (∀ j, j < dataBug.length → validDate (tsAt dataBug j)) ∧
    (Backtester.run buyAtOne dataBug 1000).in_position = false ∧
    (Backtester.run buyAtOne dataBug 1000).yearly_pnl 2020
      = (((Backtester.run buyAtOne dataBug 1000).trades.filter
          fun t => Backtester.parsedYear t.entryDate = 2020).map Trade.pnl).sum :=
  ⟨by decide,
   (simulator_position_invariants buyAtOne dataBug 1000).1,
   (simulator_position_invariants buyAtOne dataBug 1000).2.2.2.2 (by decide) 2020⟩
